import Mathlib

/-!
Verification of the gofeed feed-parsing core against its specification.

Go strings are modelled as `List Char` (all inputs of interest are ASCII, so
byte indices and character indices coincide); Go `(value, error)` pairs are
modelled as `Option value × Option Err`; Go maps with list values are modelled
as functions with pointwise append.
-/

namespace Gofeed

/-! ## String scanning (src/internal/shared/parseutils.go) -/

/-- ASCII lower-casing of one character (Go `strings.ToLower` restricted to
the ASCII range, which covers every element/attribute name compared by this
code). -/
def lowerChar (c : Char) : Char :=
  if 'A' ≤ c ∧ c ≤ 'Z' then Char.ofNat (c.toNat + 32) else c

/-- Go `strings.ToLower`, ASCII range. -/
def sToLower (s : String) : String := String.mk (s.data.map lowerChar)

/-- ASCII white space, as trimmed by Go `strings.TrimSpace` on the inputs of
interest. -/
def isSpaceChar (c : Char) : Bool :=
  c = ' ' || c = '\t' || c = '\n' || c = '\r' || c = Char.ofNat 11 ||
    c = Char.ofNat 12

/-- Go `strings.TrimSpace`, ASCII range. -/
def sTrim (s : String) : String :=
  String.mk (((s.data.dropWhile isSpaceChar).reverse.dropWhile
    isSpaceChar).reverse)

/-- Scanner behind Go `strings.Index`: the index (counted from `i`) of the
first position of `s` at which `pat` starts, `none` if there is none. -/
def strIndexAux : List Char → List Char → Nat → Option Nat
  | s@(_ :: rest), pat, i =>
    if pat.isPrefixOf s then some i else strIndexAux rest pat (i + 1)
  | [], pat, i => if pat.isEmpty then some i else none

/-- `indexAt` from src/internal/shared/parseutils.go: Go
`strings.Index(str[start:], substr)` with `start` added back on success
(`none` models the `-1` result). -/
def indexAt (str substr : List Char) (start : Nat) : Option Nat :=
  (strIndexAux (str.drop start) substr 0).map (· + start)

/-- Model of Go stdlib `html.UnescapeString`, restricted to the basic named
entities (amp, lt, gt, quot); on inputs containing only these entities it
agrees with the stdlib function, and it is the identity on entity-free text. -/
def htmlUnescape : List Char → List Char
  | [] => []
  | '&' :: 'a' :: 'm' :: 'p' :: ';' :: rest => '&' :: htmlUnescape rest
  | '&' :: 'l' :: 't' :: ';' :: rest => '<' :: htmlUnescape rest
  | '&' :: 'g' :: 't' :: ';' :: rest => '>' :: htmlUnescape rest
  | '&' :: 'q' :: 'u' :: 'o' :: 't' :: ';' :: rest =>
    '"' :: htmlUnescape rest
  | c :: rest => c :: htmlUnescape rest

/-- `CDATA_START` constant from src/internal/shared/parseutils.go. -/
def cdataStart : List Char := "<![CDATA[".toList

/-- `CDATA_END` constant from src/internal/shared/parseutils.go. -/
def cdataEnd : List Char := "]]>".toList

/-- The `for curr < len(str)` loop of `StripCDATA`
(src/internal/shared/parseutils.go lines 53-72), with the accumulated
`strings.Builder` as `buf`.  `fuel` bounds the number of iterations of the Go
loop (which always advances `curr` by at least `len(CDATA_END)`), so any
`fuel > str.length` is enough to reach the loop's own exits. -/
def stripCDATALoop (str : List Char) : Nat → Nat → List Char → List Char
  | 0, _, buf => buf
  | fuel + 1, curr, buf =>
    if curr < str.length then
      match indexAt str cdataStart curr with
      | none => buf ++ htmlUnescape (str.drop curr)
      | some start =>
        match indexAt str cdataEnd start with
        | none => buf ++ htmlUnescape (str.drop curr)
        | some e =>
          stripCDATALoop str fuel (curr + e + cdataEnd.length)
            (buf ++ ((str.drop (start + cdataStart.length)).take
              (e - (start + cdataStart.length))))
    else buf

/-- `StripCDATA` from src/internal/shared/parseutils.go. -/
def stripCDATA (s : List Char) : List Char :=
  stripCDATALoop s (s.length + 1) 0 []

/-! ## Feed-type detection (src/detector.go) -/

/-- `FeedType` from src/detector.go. -/
inductive FeedType where
  | unknown
  | atomFeed
  | rss
  | json
deriving DecidableEq

/-- Model of Go `unicode.IsSpace(rune(ch))` for a single byte `ch`
(the Latin-1 white-space runes). -/
def isSpaceByte (c : UInt8) : Bool :=
  c = 9 || c = 10 || c = 11 || c = 12 || c = 13 || c = 32 || c = 0x85 ||
    c = 0xA0

/-- The byte-order-mark bytes skipped by `DetectFeedBytes`
(src/detector.go line 50). -/
def isBomByte (c : UInt8) : Bool :=
  c = 0xFE || c = 0xFF || c = 0x00 || c = 0xEF || c = 0xBB || c = 0xBF

/-- The leading `for i, ch := range b` loop of `DetectFeedBytes`
(src/detector.go lines 42-56): whitespace makes the loop `continue`, the BOM
switch cases fall through to the next iteration, and the first other byte is
kept as `firstChar` together with the re-sliced buffer `b[i:]`.  `none`
models the loop running off the end with `firstChar` still `0`. -/
def detectSkipLoop : List UInt8 → Option (UInt8 × List UInt8)
  | [] => none
  | c :: rest =>
    if isSpaceByte c then detectSkipLoop rest
    else if isBomByte c then detectSkipLoop rest
    else some (c, c :: rest)

/-- Classification of the lower-cased root-element name by the `'<'` branch of
`DetectFeedBytes` (src/detector.go lines 67-72). -/
def classifyRoot (n : String) : FeedType :=
  match sToLower n with
  | "rdf" => FeedType.rss
  | "rss" => FeedType.rss
  | "feed" => FeedType.atomFeed
  | _ => FeedType.unknown

/-- `DetectFeedBytes` from src/detector.go.  The XML root-element search
(`xml.NewParser(...).FindRoot()` plus `p.Name`) and Go `json.Valid` are
external collaborators, passed in as `findRootName` (the name of the first
start tag of the buffer, `none` when `FindRoot` fails) and `jsonValid`.
Byte 60 is `<` and byte 123 is the opening curly bracket. -/
def detectFeedBytes (findRootName : List UInt8 → Option String)
    (jsonValid : List UInt8 → Bool) (b : List UInt8) : FeedType :=
  match detectSkipLoop b with
  | none => FeedType.unknown
  | some (c, rest) =>
    if c = 60 then
      match findRootName rest with
      | none => FeedType.unknown
      | some n => classifyRoot n
    else if c = 123 then
      if jsonValid rest then FeedType.json else FeedType.unknown
    else FeedType.unknown

/-- The specification's wording of feed-type detection, written from the
claim: skip leading whitespace and BOM bytes; inspect the first remaining
byte: on `<` classify the lower-cased root name, on the opening curly bracket
return JSON exactly when the remainder validates as JSON, otherwise (or when
nothing remains, or no root is found) Unknown. -/
def detectFeedBytesSpec (findRootName : List UInt8 → Option String)
    (jsonValid : List UInt8 → Bool) (b : List UInt8) : FeedType :=
  match b.dropWhile (fun c => isSpaceByte c || isBomByte c) with
  | [] => FeedType.unknown
  | c :: rest =>
    if c = 60 then
      match findRootName (c :: rest) with
      | none => FeedType.unknown
      | some n => classifyRoot n
    else if c = 123 then
      if jsonValid (c :: rest) then FeedType.json else FeedType.unknown
    else FeedType.unknown

/-! ## xml:base attribute resolution (src/atom/xmlbase.go, src/atom/parser.go)

Go's `net/url` is an external collaborator.  A parsed URL is an abstract type
`υ` together with the operations the gofeed code applies to it: `parseURL`
(Go `url.Parse`, `none` on a parse error), `getPath`/`setPath` (the `Path`
field accesses), `resolveReference` (`URL.ResolveReference`) and `urlToString`
(`URL.String`).  The in-place `b.Path += "/"` mutation in the Go code is
idempotent and is therefore modelled per call. -/

/-- One XML attribute: local name and value (goxpp `xml.Attr`). -/
structure XmlAttr where
  localName : String
  value : String
deriving DecidableEq

/-- `atomUriAttrs` from src/atom/parser.go (also `uriAttrs` in
src/internal/shared/xmlbase.go): the attributes resolved against xml:base. -/
def atomUriAttrs : List String := ["href", "scheme", "src", "uri"]

/-- `xmlBaseResolveUrl` from src/atom/xmlbase.go: parse `u`; with no base
return it unresolved; otherwise first append a trailing `/` to a non-empty
base path that lacks one (the base path is treated as a directory), then
resolve by reference resolution.  `none` models the error return (which can
only come from `url.Parse`). -/
def xmlBaseResolveUrl {υ : Type} (parseURL : String → Option υ)
    (getPath : υ → String) (setPath : υ → String → υ)
    (resolveReference : υ → υ → υ) (b : Option υ) (u : String) : Option υ :=
  match parseURL u with
  | none => none
  | some relURL =>
    match b with
    | none => some relURL
    | some bu =>
      let bu' :=
        if getPath bu ≠ "" ∧ u ≠ "" ∧ (getPath bu).back ≠ '/' then
          setPath bu (getPath bu ++ "/")
        else bu
      some (resolveReference bu' relURL)

/-- The per-attribute rewrite described by the specification: an attribute
whose lower-cased local name is one of href/scheme/src/uri is replaced by
the resolved absolute form; a resolution failure keeps the original value;
any other attribute is untouched. -/
def resolveOneAttr {υ : Type} (parseURL : String → Option υ)
    (getPath : υ → String) (setPath : υ → String → υ)
    (resolveReference : υ → υ → υ) (urlToString : υ → String)
    (base : Option υ) (a : XmlAttr) : XmlAttr :=
  if sToLower a.localName ∈ atomUriAttrs then
    match xmlBaseResolveUrl parseURL getPath setPath resolveReference base
        a.value with
    | some absURL => { a with value := urlToString absURL }
    | none => a
  else a

/-- `Parser.resolveAttrs` from src/atom/parser.go lines 273-286: the
`for i := range ap.p.Attrs` loop, rewriting each attribute whose lower-cased
local name is in `atomUriAttrs` to its resolved absolute form, and keeping the
original value whenever `xmlBaseResolveUrl` fails. -/
def resolveAttrsLoop {υ : Type} (parseURL : String → Option υ)
    (getPath : υ → String) (setPath : υ → String → υ)
    (resolveReference : υ → υ → υ) (urlToString : υ → String)
    (base : Option υ) : List XmlAttr → List XmlAttr
  | [] => []
  | a :: rest =>
    let a' :=
      if sToLower a.localName ∈ atomUriAttrs then
        match xmlBaseResolveUrl parseURL getPath setPath resolveReference
            base a.value with
        | some absURL => { a with value := urlToString absURL }
        | none => a
      else a
    a' :: resolveAttrsLoop parseURL getPath setPath resolveReference
      urlToString base rest

/-! ## Namespace resolution (src/internal/shared/extparser.go) -/

/-- `canonicalNamespaces` from src/internal/shared/extparser.go: the static
table mapping namespace URI to canonical short prefix. -/
def canonicalNamespaces : List (String × String) := [
  ("http://webns.net/mvcb/", "admin"),
  ("http://purl.org/rss/1.0/modules/aggregation/", "ag"),
  ("http://purl.org/rss/1.0/modules/annotate/", "annotate"),
  ("http://media.tangent.org/rss/1.0/", "audio"),
  ("http://backend.userland.com/blogChannelModule", "blogChannel"),
  ("http://creativecommons.org/ns#license", "cc"),
  ("http://web.resource.org/cc/", "cc"),
  ("http://cyber.law.harvard.edu/rss/creativeCommonsRssModule.html",
    "creativeCommons"),
  ("http://backend.userland.com/creativeCommonsRssModule",
    "creativeCommons"),
  ("http://purl.org/rss/1.0/modules/company", "co"),
  ("http://purl.org/rss/1.0/modules/content/", "content"),
  ("http://my.theinfo.org/changed/1.0/rss/", "cp"),
  ("http://purl.org/dc/elements/1.1/", "dc"),
  ("http://purl.org/dc/terms/", "dcterms"),
  ("http://purl.org/rss/1.0/modules/email/", "email"),
  ("http://purl.org/rss/1.0/modules/event/", "ev"),
  ("http://rssnamespace.org/feedburner/ext/1.0", "feedburner"),
  ("http://freshmeat.net/rss/fm/", "fm"),
  ("http://xmlns.com/foaf/0.1/", "foaf"),
  ("http://www.w3.org/2003/01/geo/wgs84_pos#", "geo"),
  ("http://www.georss.org/georss", "georss"),
  ("http://www.opengis.net/gml", "gml"),
  ("http://postneo.com/icbm/", "icbm"),
  ("http://purl.org/rss/1.0/modules/image/", "image"),
  ("http://www.itunes.com/DTDs/PodCast-1.0.dtd", "itunes"),
  ("http://example.com/DTDs/PodCast-1.0.dtd", "itunes"),
  ("http://purl.org/rss/1.0/modules/link/", "l"),
  ("http://search.yahoo.com/mrss", "media"),
  ("http://search.yahoo.com/mrss/", "media"),
  ("http://madskills.com/public/xml/rss/module/pingback/", "pingback"),
  ("http://prismstandard.org/namespaces/1.2/basic/", "prism"),
  ("http://www.w3.org/1999/02/22-rdf-syntax-ns#", "rdf"),
  ("http://www.w3.org/2000/01/rdf-schema#", "rdfs"),
  ("http://purl.org/rss/1.0/modules/reference/", "ref"),
  ("http://purl.org/rss/1.0/modules/richequiv/", "reqv"),
  ("http://purl.org/rss/1.0/modules/search/", "search"),
  ("http://purl.org/rss/1.0/modules/slash/", "slash"),
  ("http://schemas.xmlsoap.org/soap/envelope/", "soap"),
  ("http://purl.org/rss/1.0/modules/servicestatus/", "ss"),
  ("http://hacks.benhammersley.com/rss/streaming/", "str"),
  ("http://purl.org/rss/1.0/modules/subscription/", "sub"),
  ("http://purl.org/rss/1.0/modules/syndication/", "sy"),
  ("http://schemas.pocketsoap.com/rss/myDescModule/", "szf"),
  ("http://purl.org/rss/1.0/modules/taxonomy/", "taxo"),
  ("http://purl.org/rss/1.0/modules/threading/", "thr"),
  ("http://purl.org/rss/1.0/modules/textinput/", "ti"),
  ("http://madskills.com/public/xml/rss/module/trackback/", "trackback"),
  ("http://wellformedweb.org/commentAPI/", "wfw"),
  ("http://purl.org/rss/1.0/modules/wiki/", "wiki"),
  ("http://www.w3.org/1999/xhtml", "xhtml"),
  ("http://www.w3.org/1999/xlink", "xlink"),
  ("http://www.w3.org/XML/1998/namespace", "xml"),
  ("http://podlove.org/simple-chapters", "psc")]

/-- `PrefixForNamespace` from src/internal/shared/extparser.go: the canonical
table first, then the document-declared prefixes (`p.Spaces`), finally the
namespace URI itself verbatim. -/
def prefixForNamespace (space : String)
    (declaredSpaces : List (String × String)) : String :=
  match canonicalNamespaces.lookup space with
  | some pfx => pfx
  | none =>
    match declaredSpaces.lookup space with
    | some pfx => pfx
    | none => space

/-- Modelled from the spec: `shared.IsExtension` is referenced from
src/rss/parser.go and src/atom/parser.go but its own source file is not under
src/.  Spec section 4.3: `isGrammarOwned(prefix)` is "true for the format's
own namespace/`rdf` and the flattened `content` field; all else is
extension"; the format's own namespace carries the empty or `rss` prefix. -/
def isExtensionElem (space : String)
    (declaredSpaces : List (String × String)) : Bool :=
  let pfx := prefixForNamespace (sTrim space) declaredSpaces
  !(pfx = "" || pfx = "rss" || pfx = "rdf" || pfx = "content")

/-! ## Extension capture (src/internal/shared/extparser.go) -/

/-- The content of an XML element as seen by `parseExtensionElement`: child
elements and text runs, in document order (comments and processing
instructions are skipped by the Go loop and are not represented). -/
inductive XContent where
  | childElem (name : String) (attrs : List (String × String))
      (kids : List XContent) : XContent
  | textRun (s : String) : XContent

/-- The element name of a content node (`p.Name` at its start tag). -/
def XContent.cname : XContent → String
  | .childElem n _ _ => n
  | .textRun _ => ""

/-- `ext.Extension` from the extensions package: one captured extension node. -/
inductive Ext where
  | mk (name value : String) (attrs : List (String × String))
      (children : List (String × List Ext)) : Ext

/-- The `Name` field of a captured node. -/
def Ext.name : Ext → String
  | .mk n _ _ _ => n

/-- The `Value` field of a captured node. -/
def Ext.value : Ext → String
  | .mk _ v _ _ => v

/-- Go map assignment `m[k] = v` on a string-to-string map, modelled on an
association list: replace in place or append a fresh key. -/
def assocPut : List (String × String) → String → String → List (String × String)
  | [], k, v => [(k, v)]
  | (k', v') :: rest, k, v =>
    if k' = k then (k, v) :: rest else (k', v') :: assocPut rest k v

/-- The attribute-copying loop `for _, attr := range p.Attrs` of
`parseExtensionElement` (namespace stripped: only `attr.Name.Local` is kept). -/
def attrsToMap (attrs : List (String × String)) : List (String × String) :=
  attrs.foldl (fun m a => assocPut m a.1 a.2) []

/-- Go `e.Children[child.Name] = append(e.Children[child.Name], child)`,
modelled on an association list keyed by child name. -/
def assocAppendExt : List (String × List Ext) → String → Ext →
    List (String × List Ext)
  | [], k, c => [(k, [c])]
  | (k', l) :: rest, k, c =>
    if k' = k then (k', l ++ [c]) :: rest
    else (k', l) :: assocAppendExt rest k c

/-- The `text1`/`text2` accumulation switch of `parseExtensionElement`
(src/internal/shared/extparser.go lines 87-95): the first text run lands in
`text1`, the second spills `text1` into the builder `text2`, and later runs
are appended to `text2`. -/
def extTextStep (t1 t2 run : String) : String × String :=
  if t1 = "" then (run, t2)
  else if t2 = "" then (t1, t1 ++ run)
  else (t1, t2 ++ run)

mutual

/-- `parseExtensionElement` from src/internal/shared/extparser.go: captures
one element as an `Ext` node — attributes copied with namespaces stripped,
value from the accumulated text runs (trimmed), child start tags recursively
captured and merged by name preserving multiplicity.  The `textRun` case is
unreachable in the parser (the function is only entered at a start tag). -/
def parseExtElem : XContent → Ext
  | .textRun s => Ext.mk "" s [] []
  | .childElem name attrs kids =>
    let st := parseExtKidsLoop kids [] "" ""
    Ext.mk name
      (if st.2.2 = "" then sTrim st.2.1 else sTrim st.2.2)
      (attrsToMap attrs) st.1

/-- The `for` token loop of `parseExtensionElement` over the element's
content, threading the children map and the `text1`/`text2` state. -/
def parseExtKidsLoop : List XContent → List (String × List Ext) → String →
    String → (List (String × List Ext)) × String × String
  | [], children, t1, t2 => (children, t1, t2)
  | .textRun s :: rest, children, t1, t2 =>
    let p := extTextStep t1 t2 s
    parseExtKidsLoop rest children p.1 p.2
  | (c@(.childElem _ _ _)) :: rest, children, t1, t2 =>
    let child := parseExtElem c
    parseExtKidsLoop rest (assocAppendExt children child.name child) t1 t2

end

/-- `ext.Extensions`, the two-level extension tree
`map prefix (map localName (list Ext))`, modelled as a total function with
`[]` as the absent-key value (matching Go map reads of missing keys). -/
def Extensions := String → String → List Ext

/-- The nil/empty extension map. -/
def emptyExtensions : Extensions := fun _ _ => []

/-- The map update of `ParseExtension`
(src/internal/shared/extparser.go lines 28-37):
`fe[prefix][name] = append(fe[prefix][name], node)` pointwise. -/
def addExtension (fe : Extensions) (pfx name : String) (node : Ext) :
    Extensions :=
  fun p n => if p = pfx ∧ n = name then fe p n ++ [node] else fe p n

/-- A fold of the `ParseExtension` map update over an arbitrary sequence of
captured occurrences `(prefix, localName, node)` in document order; this is
how every grammar accumulates its extension tree (including the reserved
`_custom` bucket, whose occurrences carry the constant prefix `"_custom"`). -/
def captureExtensions (occs : List (String × String × Ext)) : Extensions :=
  occs.foldl (fun fe o => addExtension fe o.1 o.2.1 o.2.2) emptyExtensions

/-- `ParseExtension` (src/internal/shared/extparser.go lines 20-39) folded
over the extension elements of a document in document order: each element
(given with its namespace URI) is captured under
`PrefixForNamespace(p.Space, p)` and its original-case name. -/
def parseExtensions (declaredSpaces : List (String × String))
    (elems : List (String × XContent)) : Extensions :=
  elems.foldl
    (fun fe e =>
      addExtension fe (prefixForNamespace e.1 declaredSpaces) e.2.cname
        (parseExtElem e.2))
    emptyExtensions

/-! ## RSS item grammar (src/rss/parser.go, first snapshot) -/

/-- goxpp `Attribute(name)`: case-sensitive local-name lookup over the
current attributes; absent yields the empty string, never an error. -/
def goAttribute (attrs : List XmlAttr) (name : String) : String :=
  match attrs.find? (fun a => a.localName = name) with
  | some a => a.value
  | none => ""

/-- One child element of an `item`, as seen by the dispatch switch of
`Parser.parseItem`: original-case name, namespace URI, attributes, the
`shared.ParseText` result for its body, and its raw content (used when the
element is routed to extension capture). -/
structure RssElem where
  name : String
  space : String
  attrs : List XmlAttr
  text : String
  kids : List XContent

/-- `rss.Item`, restricted to the fields assigned by `parseItem`'s switch;
`Option` distinguishes a field never assigned from one assigned.  The Go
code accumulates `links`/`categories`/`enclosures` in local slices merged
after the loop; the step function appends to the item directly, which keeps
the same contents and order.  The parsed-date caches and the iTunes/Dublin
Core typed views (external utilities applied after the loop) are not
modelled. -/
structure RssItem where
  title : Option String := none
  description : Option String := none
  content : Option String := none
  link : Option String := none
  author : Option String := none
  comments : Option String := none
  pubDate : Option String := none
  guid : Option (String × String) := none
  source : Option (String × String) := none
  enclosure : Option (String × String × String) := none
  enclosures : List (String × String × String) := []
  categories : List (String × String) := []
  links : List String := []
  extensions : Extensions := emptyExtensions

/-- The per-child dispatch switch of `Parser.parseItem`
(src/rss/parser.go lines 407-523): extension elements are routed to
`ParseExtension`; `encoded` populates the flattened `Content` field only
when its namespace prefix resolves to `content`; unrecognized children are
captured under the `_custom` bucket. -/
def parseItemChild (declaredSpaces : List (String × String)) (e : RssElem)
    (item : RssItem) : RssItem :=
  if isExtensionElem e.space declaredSpaces then
    { item with
      extensions := addExtension item.extensions
        (prefixForNamespace e.space declaredSpaces) e.name
        (parseExtElem (XContent.childElem e.name
          (e.attrs.map fun a => (a.localName, a.value)) e.kids)) }
  else
    match sToLower e.name with
    | "title" => { item with title := some e.text }
    | "description" => { item with description := some e.text }
    | "encoded" =>
      if prefixForNamespace (sTrim e.space) declaredSpaces = "content" then
        { item with content := some e.text }
      else item
    | "link" =>
      let href := goAttribute e.attrs "href"
      let url := if e.text = "" ∧ href ≠ "" then href else e.text
      { item with
        link := some url
        links := item.links ++ [url] }
    | "author" => { item with author := some e.text }
    | "comments" => { item with comments := some e.text }
    | "pubdate" => { item with pubDate := some e.text }
    | "source" =>
      { item with source := some (goAttribute e.attrs "url", e.text) }
    | "enclosure" =>
      let enc := (goAttribute e.attrs "url", goAttribute e.attrs "length",
        goAttribute e.attrs "type")
      { item with
        enclosure := some enc
        enclosures := item.enclosures ++ [enc] }
    | "guid" =>
      { item with guid := some (goAttribute e.attrs "isPermalink", e.text) }
    | "category" =>
      { item with categories :=
        item.categories ++ [(goAttribute e.attrs "domain", e.text)] }
    | _ =>
      { item with
        extensions := addExtension item.extensions "_custom" e.name
          (Ext.mk e.name e.text
            (attrsToMap (e.attrs.map fun a => (a.localName, a.value))) []) }

/-! ## Pull-parser cursor (goxpp) and the sticky-error reader
(src/internal/xml/reader.go)

The underlying goxpp `XMLPullParser` is an external collaborator; a parse is
modelled as a pre-tokenized event stream (lexical errors of the byte layer are
out of scope), with the parser's current token and document-declared prefix
map carried alongside. -/

/-- goxpp `XMLEventType` (the events the gofeed code dispatches on; comments,
processing instructions and directives are collapsed into `other`, which
every loop under verification skips). -/
inductive XEvent where
  | startTag
  | endTag
  | textEv
  | other
  | endDocument
deriving DecidableEq

/-- One pull-parser token: event kind, element name, namespace URI and
attribute list. -/
structure Tok where
  ev : XEvent
  name : String := ""
  space : String := ""
  attrs : List XmlAttr := []
deriving DecidableEq

/-- Go `error` values produced by the parsing core.  `wrap` models
`fmt.Errorf("...: %w", err)` context; `fuelOut` is a model artifact for
exhausted loop fuel and is unreachable for adequate fuel. -/
inductive Err where
  | prematureEnd
  | noRoot
  | mismatch (expected got : String)
  | textFailure
  | fuelOut
  | wrap (e : Err)
  | both (e1 e2 : Err)
deriving DecidableEq

/-- Strip `fmt.Errorf` wrapping layers (Go `errors.Is` reaches the base). -/
def Err.base : Err → Err
  | .wrap e => e.base
  | e => e

/-- The parser state: remaining token stream, current token, the
document-declared prefix map (`p.Spaces`) and, for the
src/internal/xml/reader.go wrapper, the recorded sticky error. -/
structure Cursor where
  stream : List Tok
  cur : Tok
  spaces : List (String × String) := []
  err : Option Err := none
deriving DecidableEq

/-- The token goxpp reports at end of input. -/
def endDocTok : Tok := { ev := XEvent.endDocument }

/-- goxpp `Next`: pop the next token and make it current; at the end of the
stream the parser keeps reporting `EndDocument`. -/
def xppNext (c : Cursor) : Tok × Cursor :=
  match c.stream with
  | [] => (endDocTok, { c with cur := endDocTok })
  | t :: ts => (t, { c with stream := ts, cur := t })

/-- goxpp `Expect(event, name)`: checks the current token against the wanted
event and name (`"*"` is a wildcard, names compare case-insensitively);
a mismatch is an error and the stream is not touched. -/
def xppExpect (c : Cursor) (ev : XEvent) (name : String) : Except Err Unit :=
  if c.cur.ev = ev ∧ (name = "*" ∨ sToLower c.cur.name = sToLower name) then
    Except.ok ()
  else Except.error (Err.mismatch name c.cur.name)

/-- The depth-counting loop of goxpp `Skip`: discard the current element's
entire subtree, stopping on the matching end tag. -/
def xppSkipLoop : Nat → Nat → Cursor → (Except Err Unit) × Cursor
  | 0, _, c => (Except.error Err.fuelOut, c)
  | fuel + 1, depth, c =>
    let (t, c2) := xppNext c
    match t.ev with
    | XEvent.startTag => xppSkipLoop fuel (depth + 1) c2
    | XEvent.endTag =>
      if depth = 0 then (Except.ok (), c2)
      else xppSkipLoop fuel (depth - 1) c2
    | XEvent.endDocument => (Except.error Err.prematureEnd, c2)
    | _ => xppSkipLoop fuel depth c2

/-- goxpp `Skip`, with fuel covering the whole remaining stream. -/
def xppSkip (c : Cursor) : (Except Err Unit) × Cursor :=
  xppSkipLoop (c.stream.length + 1) 0 c

/-- The loop of `shared.FindRoot` (src/internal/shared/parseutils.go lines
28-43): advance until the first start tag, failing if `EndDocument` is
reached first. -/
def findRootLoop : Nat → Cursor → (Except Err Unit) × Cursor
  | 0, c => (Except.error Err.fuelOut, c)
  | fuel + 1, c =>
    let (t, c2) := xppNext c
    match t.ev with
    | XEvent.startTag => (Except.ok (), c2)
    | XEvent.endDocument => (Except.error Err.noRoot, c2)
    | _ => findRootLoop fuel c2

/-- `shared.FindRoot`. -/
def findRoot (c : Cursor) : (Except Err Unit) × Cursor :=
  findRootLoop (c.stream.length + 1) c

/-- The token loop of `Parser.Next` (src/internal/xml/reader.go lines
182-198): consume tokens until a start or end tag, failing on
`EndDocument`. -/
def pNextLoop : Nat → Cursor → (Except Err XEvent) × Cursor
  | 0, c => (Except.error Err.fuelOut, c)
  | fuel + 1, c =>
    let (t, c2) := xppNext c
    match t.ev with
    | XEvent.endTag => (Except.ok XEvent.endTag, c2)
    | XEvent.startTag => (Except.ok XEvent.startTag, c2)
    | XEvent.endDocument => (Except.error Err.prematureEnd, c2)
    | _ => pNextLoop fuel c2

/-- `Parser.Next` from src/internal/xml/reader.go lines 177-199: when an
error has been recorded it is returned immediately, without touching the
stream; otherwise the token loop runs. -/
def pNext (c : Cursor) : (Except Err XEvent) × Cursor :=
  match c.err with
  | some e => (Except.error e, c)
  | none => pNextLoop (c.stream.length + 1) c

/-- `Parser.Expect` from src/internal/xml/reader.go lines 164-170: goxpp
`Expect` with error context added. -/
def pExpect (c : Cursor) (ev : XEvent) (name : String) : Except Err Unit :=
  match xppExpect c ev name with
  | Except.error e => Except.error (Err.wrap e)
  | Except.ok _ => Except.ok ()

/-- `Parser.Text` from src/internal/xml/reader.go lines 148-155: goxpp
`NextText` (external, passed in) with a failure recorded into the sticky
error and the empty string returned; a success is whitespace-trimmed. -/
def pText (nextText : Cursor → (Except Err String) × Cursor) (c : Cursor) :
    String × Cursor :=
  match nextText c with
  | (Except.error e, c2) => ("", { c2 with err := some (Err.wrap e) })
  | (Except.ok s, c2) => (sTrim s, c2)

/-- The child loop of `Parser.ParsingElement`
(src/internal/xml/reader.go lines 214-225): advance; an end tag stops the
loop; each start tag invokes `yield` once on the parser state and the output
`σ` being built. -/
def parsingElementLoop {σ : Type}
    (yield : Cursor → σ → (Except Err Unit) × Cursor × σ) :
    Nat → Cursor → σ → (Except Err Unit) × Cursor × σ
  | 0, c, o => (Except.error Err.fuelOut, c, o)
  | fuel + 1, c, o =>
    match pNext c with
    | (Except.error e, c2) => (Except.error (Err.wrap e), c2, o)
    | (Except.ok ev, c2) =>
      if ev = XEvent.endTag then (Except.ok (), c2, o)
      else
        match yield c2 o with
        | (Except.error e, c3, o2) => (Except.error e, c3, o2)
        | (Except.ok _, c3, o2) => parsingElementLoop yield fuel c3 o2

/-- `Parser.ParsingElement` from src/internal/xml/reader.go lines 201-231:
expect the start tag, run `init` once if present, loop over the children,
then expect the end tag. -/
def parsingElement {σ : Type} (name : String)
    (init : Option (σ → Except Err σ))
    (yield : Cursor → σ → (Except Err Unit) × Cursor × σ)
    (fuel : Nat) (c : Cursor) (o : σ) : (Except Err Unit) × Cursor × σ :=
  match pExpect c XEvent.startTag name with
  | Except.error e => (Except.error e, c, o)
  | Except.ok _ =>
    let initRes : Except Err σ :=
      match init with
      | none => Except.ok o
      | some f => f o
    match initRes with
    | Except.error e => (Except.error e, c, o)
    | Except.ok o1 =>
      match parsingElementLoop yield fuel c o1 with
      | (Except.error e, c2, o2) => (Except.error e, c2, o2)
      | (Except.ok _, c2, o2) =>
        match pExpect c2 XEvent.endTag name with
        | Except.error e => (Except.error e, c2, o2)
        | Except.ok _ => (Except.ok (), c2, o2)

/-! ## Top-level RSS parse (src/rss/parser.go, first snapshot)

Go sub-parsers return `(*T, error)`; both components are modelled, so
nothing in the types forces a partial value and an error to be mutually
exclusive — that exclusivity is exactly what is proved about the top level.
The per-element sub-parsers (`parseChannel`, `parseItem`, ...) are separate
functions and are abstracted as parameters. -/

/-- A Go sub-parser: `(pointer-or-nil, error-or-nil)` plus the advanced
parser state. -/
def GoParse (α : Type) : Type := Cursor → (Option α × Option Err) × Cursor

/-- A Go sub-parser returning a value (not a pointer) and an error. -/
def GoParseV (α : Type) : Type := Cursor → (α × Option Err) × Cursor

/-- `Parser.nextTag` from src/rss/parser.go lines 136-153: the same token
loop as the reader's `Next` but without a sticky-error check. -/
def rssNextTag (c : Cursor) : (Except Err XEvent) × Cursor :=
  pNextLoop (c.stream.length + 1) c

/-- `Parser.parseVersion` from src/rss/parser.go lines 873-888: the root's
`version` attribute for `rss`, the fixed RDF xmlns table for `rdf`. -/
def rssParseVersion (c : Cursor) : String :=
  match sToLower c.cur.name with
  | "rss" => goAttribute c.cur.attrs "version"
  | "rdf" =>
    match goAttribute c.cur.attrs "xmlns" with
    | "http://channel.netscape.com/rdf/simple/0.9/" => "0.9"
    | "http://my.netscape.com/rdf/simple/0.9/" => "0.9"
    | "http://purl.org/rss/1.0/" => "1.0"
    | _ => ""
  | _ => ""

/-- `rss.Feed`, restricted to the fields `parseRoot`'s merge step touches
(the remaining channel fields flow through the abstract `parseChannel`
untouched).  `items = none` models a nil Go slice, `some []` an allocated
empty one; list elements are `Option` because Go slices of pointers can
hold nil. -/
structure RssFeedG (ι τ μ : Type) where
  items : Option (List (Option ι)) := none
  textInput : Option τ := none
  image : Option μ := none
  version : String := ""

/-- The root-merge step of `Parser.parseRoot` (src/rss/parser.go lines
103-121): a missing channel is replaced by a fresh feed with an allocated
empty item list; root-level items are appended after the channel's items;
root-level textinput/image override; the version is set last. -/
def mergeRoot {ι τ μ : Type} (channel : Option (RssFeedG ι τ μ))
    (textinput : Option τ) (image : Option μ) (items : List (Option ι))
    (ver : String) : RssFeedG ι τ μ :=
  let f : RssFeedG ι τ μ :=
    match channel with
    | none => { items := some [] }
    | some f => f
  let f := if 0 < items.length then
      { f with items := some (f.items.getD [] ++ items) }
    else f
  let f :=
    match textinput with
    | some t => { f with textInput := some t }
    | none => f
  let f :=
    match image with
    | some i => { f with image := some i }
    | none => f
  { f with version := ver }

/-- The child loop of `Parser.parseRoot` (src/rss/parser.go lines 49-95):
root-level extensions are skipped; `channel`, `item`, `textinput` and
`image` children are parsed (an error aborts the whole call); everything
else is skipped.  The loop's own exit carries the accumulated state. -/
def rssParseRootLoop {ι τ μ : Type}
    (parseChannel : GoParse (RssFeedG ι τ μ)) (parseItem : GoParse ι)
    (parseTextInput : GoParse τ) (parseImage : GoParse μ) :
    Nat → Cursor → Option (RssFeedG ι τ μ) → Option τ → Option μ →
    List (Option ι) →
    (Except Err (Option (RssFeedG ι τ μ) × Option τ × Option μ ×
      List (Option ι))) × Cursor
  | 0, c, _, _, _, _ => (Except.error Err.fuelOut, c)
  | fuel + 1, c, ch, ti, im, its =>
    match rssNextTag c with
    | (Except.error e, c2) => (Except.error e, c2)
    | (Except.ok ev, c2) =>
      if ev = XEvent.endTag then (Except.ok (ch, ti, im, its), c2)
      else
        if isExtensionElem c2.cur.space c2.spaces then
          rssParseRootLoop parseChannel parseItem parseTextInput parseImage
            fuel (xppSkip c2).2 ch ti im its
        else
          if sToLower c2.cur.name = "channel" then
            match parseChannel c2 with
            | ((_, some e), c3) => (Except.error e, c3)
            | ((chv, none), c3) =>
              rssParseRootLoop parseChannel parseItem parseTextInput
                parseImage fuel c3 chv ti im its
          else if sToLower c2.cur.name = "item" then
            match parseItem c2 with
            | ((_, some e), c3) => (Except.error e, c3)
            | ((iv, none), c3) =>
              rssParseRootLoop parseChannel parseItem parseTextInput
                parseImage fuel c3 ch ti im (its ++ [iv])
          else if sToLower c2.cur.name = "textinput" then
            match parseTextInput c2 with
            | ((_, some e), c3) => (Except.error e, c3)
            | ((tv, none), c3) =>
              rssParseRootLoop parseChannel parseItem parseTextInput
                parseImage fuel c3 ch tv im its
          else if sToLower c2.cur.name = "image" then
            match parseImage c2 with
            | ((_, some e), c3) => (Except.error e, c3)
            | ((imv, none), c3) =>
              rssParseRootLoop parseChannel parseItem parseTextInput
                parseImage fuel c3 ch ti imv its
          else
            rssParseRootLoop parseChannel parseItem parseTextInput
              parseImage fuel (xppSkip c2).2 ch ti im its

/-- No token of the stream is a start tag whose lower-cased name is
`channel` — the document's root contains no channel element. -/
def noChannelTok (s : List Tok) : Prop :=
  ∀ t ∈ s, ¬(t.ev = XEvent.startTag ∧ sToLower t.name = "channel")

/-- `Parser.parseRoot` from src/rss/parser.go lines 34-122. -/
def rssParseRoot {ι τ μ : Type}
    (parseChannel : GoParse (RssFeedG ι τ μ)) (parseItem : GoParse ι)
    (parseTextInput : GoParse τ) (parseImage : GoParse μ)
    (fuel : Nat) (c : Cursor) :
    (Option (RssFeedG ι τ μ) × Option Err) × Cursor :=
  match xppExpect c XEvent.startTag "rss", xppExpect c XEvent.startTag "rdf"
  with
  | Except.error e1, Except.error e2 => ((none, some (Err.both e1 e2)), c)
  | _, _ =>
    match rssParseRootLoop parseChannel parseItem parseTextInput parseImage
        fuel c none none none [] with
    | (Except.error e, c2) => ((none, some e), c2)
    | (Except.ok (ch, ti, im, its), c2) =>
      match xppExpect c2 XEvent.endTag "rss",
          xppExpect c2 XEvent.endTag "rdf" with
      | Except.error e1, Except.error e2 =>
        ((none, some (Err.both e1 e2)), c2)
      | _, _ =>
        ((some (mergeRoot ch ti im its (rssParseVersion c)), none), c2)

/-- `Parser.Parse` from src/rss/parser.go lines 25-32: `shared.FindRoot`,
then `parseRoot`. -/
def rssParse {ι τ μ : Type}
    (parseChannel : GoParse (RssFeedG ι τ μ)) (parseItem : GoParse ι)
    (parseTextInput : GoParse τ) (parseImage : GoParse μ)
    (fuel : Nat) (c : Cursor) :
    (Option (RssFeedG ι τ μ) × Option Err) × Cursor :=
  match findRoot c with
  | (Except.error e, c2) => ((none, some e), c2)
  | (Except.ok _, c2) =>
    rssParseRoot parseChannel parseItem parseTextInput parseImage fuel c2

/-! ## Top-level Atom parse (src/atom/parser.go) -/

/-- `atom.Link`: the record built by `Parser.parseLink`. -/
structure AtomLink where
  href : String := ""
  hreflang : String := ""
  typ : String := ""
  length : String := ""
  title : String := ""
  rel : String := ""
deriving DecidableEq

/-- `Parser.parseLink` from src/atom/parser.go lines 683-707: expect the
start tag, capture the attributes (an absent `rel` defaults to
`"alternate"`), skip the subtree, expect the end tag. -/
def parseLinkA (c : Cursor) : (Option AtomLink × Option Err) × Cursor :=
  match xppExpect c XEvent.startTag "link" with
  | Except.error e => ((none, some (Err.wrap e)), c)
  | Except.ok _ =>
    let rel := goAttribute c.cur.attrs "rel"
    let l : AtomLink :=
      { href := goAttribute c.cur.attrs "href"
        hreflang := goAttribute c.cur.attrs "hreflang"
        typ := goAttribute c.cur.attrs "type"
        length := goAttribute c.cur.attrs "length"
        title := goAttribute c.cur.attrs "title"
        rel := if rel = "" then "alternate" else rel }
    match xppSkip c with
    | (Except.error e, c2) => ((none, some (Err.wrap e)), c2)
    | (Except.ok _, c2) =>
      match xppExpect c2 XEvent.endTag "link" with
      | Except.error e => ((none, some (Err.wrap e)), c2)
      | Except.ok _ => ((some l, none), c2)

/-- `Parser.parseVersion` from src/atom/parser.go lines 826-842. -/
def atomParseVersion (c : Cursor) : String :=
  let ver := goAttribute c.cur.attrs "version"
  if ver ≠ "" then ver
  else
    match goAttribute c.cur.attrs "xmlns" with
    | "http://purl.org/atom/ns#" => "0.3"
    | "http://www.w3.org/2005/Atom" => "1.0"
    | _ => ""

/-- The token loop of the Atom `Parser.nextTag` (src/atom/parser.go lines
252-270): like the RSS one, but every start tag first has its URI-carrying
attributes rewritten by `resolveAttrs` (the xml:base hook, abstracted here
as `resolveHook`; the hook itself is verified through `resolveAttrsLoop`). -/
def atomNextTagLoop (resolveHook : List XmlAttr → List XmlAttr) :
    Nat → Cursor → (Except Err XEvent) × Cursor
  | 0, c => (Except.error Err.fuelOut, c)
  | fuel + 1, c =>
    let (t, c2) := xppNext c
    match t.ev with
    | XEvent.endTag => (Except.ok XEvent.endTag, c2)
    | XEvent.startTag =>
      (Except.ok XEvent.startTag,
        { c2 with cur := { t with attrs := resolveHook t.attrs } })
    | XEvent.endDocument => (Except.error Err.prematureEnd, c2)
    | _ => atomNextTagLoop resolveHook fuel c2

/-- Atom `Parser.nextTag`. -/
def atomNextTag (resolveHook : List XmlAttr → List XmlAttr) (c : Cursor) :
    (Except Err XEvent) × Cursor :=
  atomNextTagLoop resolveHook (c.stream.length + 1) c

/-- `atom.Feed`, restricted to the fields `parseRoot` assigns.  `P`, `L`,
`K`, `G`, `E` are the person/link/category/generator/entry records produced
by the abstract sub-parsers, `X` the extension map threaded through
`shared.ParseExtension`. -/
structure AtomFeedG (P L K G E X : Type) where
  version : String := ""
  language : String := ""
  title : String := ""
  idStr : String := ""
  updated : String := ""
  subtitle : String := ""
  icon : String := ""
  logo : String := ""
  rights : String := ""
  generator : Option G := none
  categories : Option (List (Option K)) := none
  authors : Option (List (Option P)) := none
  contributors : Option (List (Option P)) := none
  links : Option (List (Option L)) := none
  entries : List (Option E) := []
  extensions : Option X := none

/-- The loop state of the Atom `parseRoot`: the feed under construction and
the local `contributors`/`authors`/`categories`/`links`/`extensions`
accumulators declared before the loop. -/
structure AtomRootAcc (P L K G E X : Type) where
  atom : AtomFeedG P L K G E X
  contributors : List (Option P) := []
  authors : List (Option P) := []
  categories : List (Option K) := []
  links : List (Option L) := []
  exts : X

/-- The child loop of the Atom `Parser.parseRoot` (src/atom/parser.go lines
72-210): extension elements are folded into the extension map; the known
children are parsed (an error aborts the whole call); unknown children are
captured into the `_custom` bucket via `shared.ParseText`, with a text
failure skipping the element instead of failing. -/
def atomParseRootLoop {P L K G E X : Type}
    (resolveHook : List XmlAttr → List XmlAttr)
    (parseExtensionA : X → GoParseV X)
    (addCustomA : X → Tok → String → X)
    (parseTextS : GoParseV String)
    (parseAtomText : GoParseV String)
    (parseLink : GoParse L) (parseGenerator : GoParse G)
    (parsePerson : String → GoParse P) (parseCategory : GoParse K)
    (parseEntry : GoParse E) :
    Nat → Cursor → AtomRootAcc P L K G E X →
    (Except Err (AtomRootAcc P L K G E X)) × Cursor
  | 0, c, _ => (Except.error Err.fuelOut, c)
  | fuel + 1, c, acc =>
    match atomNextTag resolveHook c with
    | (Except.error e, c2) => (Except.error e, c2)
    | (Except.ok ev, c2) =>
      if ev = XEvent.endTag then (Except.ok acc, c2)
      else
        let again := atomParseRootLoop resolveHook parseExtensionA
          addCustomA parseTextS parseAtomText parseLink parseGenerator
          parsePerson parseCategory parseEntry fuel
        if isExtensionElem c2.cur.space c2.spaces then
          match parseExtensionA acc.exts c2 with
          | ((_, some e), c3) => (Except.error e, c3)
          | ((x, none), c3) => again c3 { acc with exts := x }
        else
          match sToLower c2.cur.name with
          | "title" =>
            match parseAtomText c2 with
            | ((_, some e), c3) => (Except.error e, c3)
            | ((r, none), c3) =>
              again c3 { acc with atom := { acc.atom with title := r } }
          | "id" =>
            match parseAtomText c2 with
            | ((_, some e), c3) => (Except.error e, c3)
            | ((r, none), c3) =>
              again c3 { acc with atom := { acc.atom with idStr := r } }
          | "updated" =>
            match parseAtomText c2 with
            | ((_, some e), c3) => (Except.error e, c3)
            | ((r, none), c3) =>
              again c3 { acc with atom := { acc.atom with updated := r } }
          | "modified" =>
            match parseAtomText c2 with
            | ((_, some e), c3) => (Except.error e, c3)
            | ((r, none), c3) =>
              again c3 { acc with atom := { acc.atom with updated := r } }
          | "subtitle" =>
            match parseAtomText c2 with
            | ((_, some e), c3) => (Except.error e, c3)
            | ((r, none), c3) =>
              again c3 { acc with atom := { acc.atom with subtitle := r } }
          | "tagline" =>
            match parseAtomText c2 with
            | ((_, some e), c3) => (Except.error e, c3)
            | ((r, none), c3) =>
              again c3 { acc with atom := { acc.atom with subtitle := r } }
          | "link" =>
            match parseLink c2 with
            | ((_, some e), c3) => (Except.error e, c3)
            | ((lv, none), c3) =>
              again c3 { acc with links := acc.links ++ [lv] }
          | "generator" =>
            match parseGenerator c2 with
            | ((_, some e), c3) => (Except.error e, c3)
            | ((gv, none), c3) =>
              again c3 { acc with atom := { acc.atom with generator := gv } }
          | "icon" =>
            match parseAtomText c2 with
            | ((_, some e), c3) => (Except.error e, c3)
            | ((r, none), c3) =>
              again c3 { acc with atom := { acc.atom with icon := r } }
          | "logo" =>
            match parseAtomText c2 with
            | ((_, some e), c3) => (Except.error e, c3)
            | ((r, none), c3) =>
              again c3 { acc with atom := { acc.atom with logo := r } }
          | "rights" =>
            match parseAtomText c2 with
            | ((_, some e), c3) => (Except.error e, c3)
            | ((r, none), c3) =>
              again c3 { acc with atom := { acc.atom with rights := r } }
          | "copyright" =>
            match parseAtomText c2 with
            | ((_, some e), c3) => (Except.error e, c3)
            | ((r, none), c3) =>
              again c3 { acc with atom := { acc.atom with rights := r } }
          | "contributor" =>
            match parsePerson "contributor" c2 with
            | ((_, some e), c3) => (Except.error e, c3)
            | ((pv, none), c3) =>
              again c3 { acc with contributors := acc.contributors ++ [pv] }
          | "author" =>
            match parsePerson "author" c2 with
            | ((_, some e), c3) => (Except.error e, c3)
            | ((pv, none), c3) =>
              again c3 { acc with authors := acc.authors ++ [pv] }
          | "category" =>
            match parseCategory c2 with
            | ((_, some e), c3) => (Except.error e, c3)
            | ((kv, none), c3) =>
              again c3 { acc with categories := acc.categories ++ [kv] }
          | "entry" =>
            match parseEntry c2 with
            | ((_, some e), c3) => (Except.error e, c3)
            | ((ev', none), c3) =>
              again c3
                { acc with
                  atom := { acc.atom with
                    entries := acc.atom.entries ++ [ev'] } }
          | _ =>
            match parseTextS c2 with
            | ((_, some _), c3) => again (xppSkip c3).2 acc
            | ((r, none), c3) =>
              again c3 { acc with exts := addCustomA acc.exts c2.cur r }

/-- The post-loop merge of the Atom `parseRoot` (src/atom/parser.go lines
212-230): each local accumulator is written to the feed only when
non-empty. -/
def atomMergeRoot {P L K G E X : Type} (isEmptyX : X → Bool)
    (acc : AtomRootAcc P L K G E X) : AtomFeedG P L K G E X :=
  let atom := acc.atom
  let atom := if 0 < acc.categories.length then
      { atom with categories := some acc.categories } else atom
  let atom := if 0 < acc.authors.length then
      { atom with authors := some acc.authors } else atom
  let atom := if 0 < acc.contributors.length then
      { atom with contributors := some acc.contributors } else atom
  let atom := if 0 < acc.links.length then
      { atom with links := some acc.links } else atom
  let atom := if isEmptyX acc.exts = false then
      { atom with extensions := some acc.exts } else atom
  atom

/-- `Parser.parseRoot` from src/atom/parser.go lines 56-237. -/
def atomParseRoot {P L K G E X : Type}
    (resolveHook : List XmlAttr → List XmlAttr)
    (parseExtensionA : X → GoParseV X)
    (addCustomA : X → Tok → String → X) (emptyX : X) (isEmptyX : X → Bool)
    (parseTextS : GoParseV String) (parseAtomText : GoParseV String)
    (parseLink : GoParse L) (parseGenerator : GoParse G)
    (parsePerson : String → GoParse P) (parseCategory : GoParse K)
    (parseEntry : GoParse E) (fuel : Nat) (c : Cursor) :
    (Option (AtomFeedG P L K G E X) × Option Err) × Cursor :=
  match xppExpect c XEvent.startTag "feed" with
  | Except.error e => ((none, some (Err.wrap e)), c)
  | Except.ok _ =>
    let acc0 : AtomRootAcc P L K G E X :=
      { atom := { entries := []
                  version := atomParseVersion c
                  language := goAttribute c.cur.attrs "lang" }
        exts := emptyX }
    match atomParseRootLoop resolveHook parseExtensionA addCustomA
        parseTextS parseAtomText parseLink parseGenerator parsePerson
        parseCategory parseEntry fuel c acc0 with
    | (Except.error e, c2) => ((none, some e), c2)
    | (Except.ok acc, c2) =>
      match xppExpect c2 XEvent.endTag "feed" with
      | Except.error e => ((none, some (Err.wrap e)), c2)
      | Except.ok _ => ((some (atomMergeRoot isEmptyX acc), none), c2)

/-- `Parser.Parse` from src/atom/parser.go lines 47-54: `shared.FindRoot`,
then `parseRoot`. -/
def atomParse {P L K G E X : Type}
    (resolveHook : List XmlAttr → List XmlAttr)
    (parseExtensionA : X → GoParseV X)
    (addCustomA : X → Tok → String → X) (emptyX : X) (isEmptyX : X → Bool)
    (parseTextS : GoParseV String) (parseAtomText : GoParseV String)
    (parseLink : GoParse L) (parseGenerator : GoParse G)
    (parsePerson : String → GoParse P) (parseCategory : GoParse K)
    (parseEntry : GoParse E) (fuel : Nat) (c : Cursor) :
    (Option (AtomFeedG P L K G E X) × Option Err) × Cursor :=
  match findRoot c with
  | (Except.error e, c2) => ((none, some e), c2)
  | (Except.ok _, c2) =>
    atomParseRoot resolveHook parseExtensionA addCustomA emptyX isEmptyX
      parseTextS parseAtomText parseLink parseGenerator parsePerson
      parseCategory parseEntry fuel c2

/-! # Theorems -/

/-- C1: the claim states that text lying between the scan position and a
matched `<![CDATA[` marker is entity-unescaped and copied before the CDATA
interior, with no preceding input text dropped.  The code disagrees:
`StripCDATA` writes only `str[start+9:end]` for a matched section and never
copies `str[curr:start]`, so on `"a<![CDATA[b]]>"` it produces `"b"`,
dropping the `"a"` that the claim (and the function's own doc comment about
passing outside content through) requires to be kept. -/
theorem c1_stripCDATA_drops_text_before_matched_cdata :
    stripCDATA "a<![CDATA[b]]>".toList = "b".toList ∧
      stripCDATA "a<![CDATA[b]]>".toList ≠ "ab".toList := by
  decide

/-- C2 counterexample: the claim states that the tail after an unmatched
`<![CDATA[` marker is copied byte-for-byte with no entity unescaping, but
`StripCDATA` passes that tail through `html.UnescapeString`: on
`"<![CDATA[&amp;"` the output is `"<![CDATA[&"`, not the unchanged input. -/
theorem c2_counterexample_tail_is_entity_unescaped :
    stripCDATA "<![CDATA[&amp;".toList = "<![CDATA[&".toList ∧
      stripCDATA "<![CDATA[&amp;".toList ≠ "<![CDATA[&amp;".toList := by
  decide

/-- C2 (amended): for every input whose first `<![CDATA[` marker has no
`]]>` terminator at or after it, `StripCDATA` returns the whole input
HTML-entity-unescaped — the tail, including the marker itself, is copied
through the entity decoder (so the marker is unchanged, but entities in the
tail are decoded rather than kept byte-for-byte). -/
theorem c2_unmatched_cdata_tail_unescaped (s : List Char) (i : Nat)
    (hstart : indexAt s cdataStart 0 = some i)
    (hend : indexAt s cdataEnd i = none) :
    stripCDATA s = htmlUnescape s := by
  have hpos : 0 < s.length := by
    cases s with
    | nil => simp [indexAt, strIndexAux, cdataStart] at hstart
    | cons a l => simp
  unfold stripCDATA
  simp only [stripCDATALoop, if_pos hpos, hstart, hend, List.drop_zero,
    List.nil_append]

/-- C2 witness: the amended theorem applied at the concrete input
`"x<![CDATA[&amp;"`. -/
theorem c2_unmatched_cdata_tail_unescaped_witness :
    stripCDATA "x<![CDATA[&amp;".toList =
      htmlUnescape "x<![CDATA[&amp;".toList :=
  c2_unmatched_cdata_tail_unescaped "x<![CDATA[&amp;".toList 1 (by decide)
    (by decide)

/-- The detector's skip loop is the drop-while of the white-space/BOM
predicate, keeping the first remaining byte together with the re-sliced
buffer. -/
theorem detectSkipLoop_eq_dropWhile (b : List UInt8) :
    detectSkipLoop b =
      (match b.dropWhile (fun c => isSpaceByte c || isBomByte c) with
       | [] => none
       | c :: rest => some (c, c :: rest)) := by
  induction b with
  | nil => simp [detectSkipLoop]
  | cons c rest ih =>
    by_cases h1 : isSpaceByte c
    · simpa [detectSkipLoop, List.dropWhile_cons, h1] using ih
    · by_cases h2 : isBomByte c
      · simpa [detectSkipLoop, List.dropWhile_cons, h1, h2] using ih
      · simp [detectSkipLoop, List.dropWhile_cons, h1, h2]

/-- C4: feed-type detection first skips leading whitespace and BOM bytes;
when the first remaining byte is `<` it classifies the lower-cased root name
(`rss`/`rdf` to RSS, `feed` to Atom, anything else — or no root found — to
Unknown); when it is the opening curly bracket it returns JSON exactly when
the remainder validates as JSON; any other first byte (or an all-skipped
buffer) yields Unknown: `DetectFeedBytes` coincides with that specification
for every buffer and every root-finder/JSON-validator. -/
theorem c4_detectFeedBytes_matches_spec
    (findRootName : List UInt8 → Option String)
    (jsonValid : List UInt8 → Bool) (b : List UInt8) :
    detectFeedBytes findRootName jsonValid b =
      detectFeedBytesSpec findRootName jsonValid b := by
  unfold detectFeedBytes detectFeedBytesSpec
  rw [detectSkipLoop_eq_dropWhile]
  cases b.dropWhile (fun c => isSpaceByte c || isBomByte c) with
  | nil => rfl
  | cons c rest => rfl

/-- The attribute-resolving loop keeps the attribute count. -/
theorem resolveAttrsLoop_length {υ : Type}
    (parseURL : String → Option υ) (getPath : υ → String)
    (setPath : υ → String → υ) (resolveReference : υ → υ → υ)
    (urlToString : υ → String) (base : Option υ) (attrs : List XmlAttr) :
    (resolveAttrsLoop parseURL getPath setPath resolveReference urlToString
      base attrs).length = attrs.length := by
  induction attrs with
  | nil => rfl
  | cons a rest ih => simp [resolveAttrsLoop, ih]

/-- C5: `resolveAttrs` preserves the attribute count and rewrites every
attribute independently: position `i` of the output is exactly the
claim-described rewrite (`resolveOneAttr`) of position `i` of the input —
URI-carrying attributes get the resolved absolute value, a failed resolution
keeps the original value, everything else is untouched, and one attribute's
failure has no effect on the others. -/
theorem c5_resolveAttrs_rewrites_each_uri_attr {υ : Type}
    (parseURL : String → Option υ) (getPath : υ → String)
    (setPath : υ → String → υ) (resolveReference : υ → υ → υ)
    (urlToString : υ → String) (base : Option υ) (attrs : List XmlAttr)
    (i : Nat) (dflt : XmlAttr) (h : i < attrs.length) :
    (resolveAttrsLoop parseURL getPath setPath resolveReference urlToString
        base attrs).length = attrs.length ∧
      (resolveAttrsLoop parseURL getPath setPath resolveReference
          urlToString base attrs).getD i dflt =
        resolveOneAttr parseURL getPath setPath resolveReference urlToString
          base (attrs.getD i dflt) := by
  refine ⟨resolveAttrsLoop_length parseURL getPath setPath resolveReference
    urlToString base attrs, ?_⟩
  induction attrs generalizing i with
  | nil => simp at h
  | cons a rest ih =>
    cases i with
    | zero => simp [resolveAttrsLoop, resolveOneAttr]
    | succ j =>
      have hj : j < rest.length := by
        simpa [Nat.succ_lt_succ_iff] using h
      simpa [resolveAttrsLoop] using ih j hj

/-- C5 witness: the theorem applied to a concrete attribute list over a
concrete URL model in which `"::"` fails to parse — the failing `src`
attribute (position 1) is kept unchanged while its neighbours are still
processed. -/
theorem c5_resolveAttrs_rewrites_each_uri_attr_witness :
    (resolveAttrsLoop (fun s => if s = "::" then none else some s)
        (fun p => p) (fun u _ => u) (fun b r => b ++ r) (fun u => u)
        (some "http://a/b/")
        [⟨"href", "c"⟩, ⟨"src", "::"⟩, ⟨"id", "z"⟩]).length =
      ([⟨"href", "c"⟩, ⟨"src", "::"⟩, ⟨"id", "z"⟩] :
        List XmlAttr).length ∧
    (resolveAttrsLoop (fun s => if s = "::" then none else some s)
        (fun p => p) (fun u _ => u) (fun b r => b ++ r) (fun u => u)
        (some "http://a/b/")
        [⟨"href", "c"⟩, ⟨"src", "::"⟩, ⟨"id", "z"⟩]).getD 1 ⟨"", ""⟩ =
      resolveOneAttr (fun s => if s = "::" then none else some s)
        (fun p => p) (fun u _ => u) (fun b r => b ++ r) (fun u => u)
        (some "http://a/b/")
        (([⟨"href", "c"⟩, ⟨"src", "::"⟩, ⟨"id", "z"⟩] :
          List XmlAttr).getD 1 ⟨"", ""⟩) :=
  c5_resolveAttrs_rewrites_each_uri_attr
    (fun s => if s = "::" then none else some s) (fun p => p) (fun u _ => u)
    (fun b r => b ++ r) (fun u => u) (some "http://a/b/")
    [⟨"href", "c"⟩, ⟨"src", "::"⟩, ⟨"id", "z"⟩] 1 ⟨"", ""⟩ (by decide)

/-- C6: an `encoded` child of an RSS item populates the flattened `Content`
field exactly when its namespace prefix resolves (canonical table first,
then document-declared prefixes, else the URI itself) to `content`.  When
the prefix resolves to anything else the element either routes to extension
capture or falls through the guard, and `Content` stays unset. -/
theorem c6_encoded_sets_content_iff_prefix_content
    (declaredSpaces : List (String × String)) (e : RssElem) (item : RssItem)
    (hname : sToLower e.name = "encoded") (hcontent : item.content = none) :
    (parseItemChild declaredSpaces e item).content = some e.text ↔
      prefixForNamespace (sTrim e.space) declaredSpaces = "content" := by
  unfold parseItemChild
  by_cases hx : isExtensionElem e.space declaredSpaces
  · rw [if_pos hx]
    constructor
    · intro hc
      exfalso
      rw [hcontent] at hc
      exact Option.noConfusion hc
    · intro hp
      exfalso
      unfold isExtensionElem at hx
      rw [hp] at hx
      simp at hx
  · rw [if_neg hx, hname]
    by_cases hp : prefixForNamespace (sTrim e.space) declaredSpaces = "content"
    · simp [hp]
    · simp only [if_neg hp]
      constructor
      · intro hc
        rw [hcontent] at hc
        exact absurd hc (Option.noConfusion ·)
      · intro hp'
        exact absurd hp' hp

/-- C6 witness: an `encoded` element in the canonical content namespace,
with no document-declared prefixes, populates `Content`. -/
theorem c6_encoded_sets_content_iff_prefix_content_witness :
    (parseItemChild []
        ⟨"encoded", "http://purl.org/rss/1.0/modules/content/", [],
          "hello", []⟩ {}).content = some "hello" := by
  have h := c6_encoded_sets_content_iff_prefix_content []
    ⟨"encoded", "http://purl.org/rss/1.0/modules/content/", [], "hello", []⟩
    {} (by decide) rfl
  exact h.mpr (by decide)

/-- A fold of the `ParseExtension` map update over any occurrence list, read
back at one `(prefix, localName)` key, yields the initial entry followed by
exactly the matching occurrences' nodes in fold order. -/
theorem extFold_apply {α : Type} (key : α → String × String)
    (node : α → Ext) (l : List α) (fe : Extensions) (p n : String) :
    (l.foldl (fun acc a => addExtension acc (key a).1 (key a).2 (node a))
        fe) p n =
      fe p n ++
        (l.filter (fun a => decide ((key a).1 = p ∧ (key a).2 = n))).map
          node := by
  induction l generalizing fe with
  | nil => simp
  | cons a rest ih =>
    simp only [List.foldl_cons, List.filter_cons]
    rw [ih]
    by_cases hk : (key a).1 = p ∧ (key a).2 = n
    · obtain ⟨h1, h2⟩ := hk
      simp [addExtension, h1, h2, List.append_assoc]
    · have hk' : ¬(p = (key a).1 ∧ n = (key a).2) := by
        intro hcontra
        exact hk ⟨hcontra.1.symm, hcontra.2.symm⟩
      simp [addExtension, hk', hk]

/-- C7: extension capture preserves document order with one node per
occurrence.  For every sequence of captured occurrences
`(prefix, localName, node)` in document order, the resulting tree at any key
`(p, n)` is exactly the matching occurrences' nodes in that order (never
deduplicated, dropped or reordered) — this covers the reserved `_custom`
bucket, whose occurrences carry the constant prefix `"_custom"`; and the
same holds for `ParseExtension` folded over a document's extension elements
keyed by `PrefixForNamespace` and original-case element name. -/
theorem c7_extension_tree_document_order :
    (∀ (occs : List (String × String × Ext)) (p n : String),
      captureExtensions occs p n =
        (occs.filter (fun o => decide (o.1 = p ∧ o.2.1 = n))).map
          (fun o => o.2.2)) ∧
    ∀ (declaredSpaces : List (String × String))
      (elems : List (String × XContent)) (p n : String),
      parseExtensions declaredSpaces elems p n =
        (elems.filter (fun e =>
          decide (prefixForNamespace e.1 declaredSpaces = p ∧
            e.2.cname = n))).map (fun e => parseExtElem e.2) := by
  constructor
  · intro occs p n
    have h := extFold_apply (fun o => (o.1, o.2.1)) (fun o => o.2.2) occs
      emptyExtensions p n
    simpa [captureExtensions, emptyExtensions] using h
  · intro declaredSpaces elems p n
    have h := extFold_apply
      (fun e : String × XContent =>
        (prefixForNamespace e.1 declaredSpaces, e.2.cname))
      (fun e => parseExtElem e.2) elems emptyExtensions p n
    simpa [parseExtensions, emptyExtensions] using h

/-- C3: once the reader has recorded an error, `Next` returns immediately
with that same error and an unchanged parser state (no token consumed); and
any `ParsingElement` call whose entry checks would otherwise succeed returns
an error wrapping the recorded one, leaves the parser state unchanged, and
never invokes its per-child `yield` — its output is exactly what `init`
built, independent of `yield` — so no further output fields are populated
and the first recorded error is the one surfaced. -/
theorem c3_sticky_error_short_circuits (c : Cursor) (e : Err)
    (h : c.err = some e) :
    pNext c = (Except.error e, c) ∧
    ∀ (σ : Type) (name : String) (init : Option (σ → Except Err σ))
      (yield : Cursor → σ → (Except Err Unit) × Cursor × σ) (o o1 : σ)
      (fuel : Nat), 0 < fuel →
      pExpect c XEvent.startTag name = Except.ok () →
      (match init with
       | none => Except.ok o
       | some f => f o) = Except.ok o1 →
      parsingElement name init yield fuel c o =
        (Except.error (Err.wrap e), c, o1) := by
  have h1 : pNext c = (Except.error e, c) := by
    unfold pNext
    rw [h]
  refine ⟨h1, ?_⟩
  intro σ name init yield o o1 fuel hfuel hexp hinit
  cases fuel with
  | zero => omega
  | succ k =>
    unfold parsingElement
    rw [hexp]
    simp only [hinit, parsingElementLoop, h1]

/-- C3 witness: the theorem applied to a concrete parser state with a
recorded error, positioned at a start tag that would otherwise parse. -/
theorem c3_sticky_error_short_circuits_witness :
    pNext ⟨[], ⟨XEvent.startTag, "x", "", []⟩, [], some Err.textFailure⟩ =
      (Except.error Err.textFailure,
        ⟨[], ⟨XEvent.startTag, "x", "", []⟩, [], some Err.textFailure⟩) ∧
    parsingElement "x" none (fun c' o' => (Except.ok (), c', o')) 1
        ⟨[], ⟨XEvent.startTag, "x", "", []⟩, [], some Err.textFailure⟩
        (0 : Nat) =
      (Except.error (Err.wrap Err.textFailure),
        ⟨[], ⟨XEvent.startTag, "x", "", []⟩, [], some Err.textFailure⟩,
        0) := by
  have h := c3_sticky_error_short_circuits
    ⟨[], ⟨XEvent.startTag, "x", "", []⟩, [], some Err.textFailure⟩
    Err.textFailure rfl
  exact ⟨h.1, h.2 Nat "x" none _ 0 0 1 (by omega) rfl rfl⟩

/-- C8: a top-level RSS or Atom parse returns either a feed with no error or
an error with a nil feed — for every input stream, every fuel and arbitrary
sub-parsers (even ones that themselves return a partial value alongside an
error), the pair returned by `Parse` has a feed exactly when it has no
error. -/
theorem c8_parse_feed_xor_error :
    (∀ (ι τ μ : Type) (pc : GoParse (RssFeedG ι τ μ)) (pi : GoParse ι)
      (pt : GoParse τ) (pm : GoParse μ) (fuel : Nat) (c : Cursor),
      ((rssParse pc pi pt pm fuel c).1.1.isSome = true ↔
        (rssParse pc pi pt pm fuel c).1.2 = none)) ∧
    ∀ (P L K G E X : Type) (rh : List XmlAttr → List XmlAttr)
      (pe : X → GoParseV X) (ac : X → Tok → String → X) (ex : X)
      (ie : X → Bool) (pts pat : GoParseV String) (pl : GoParse L)
      (pg : GoParse G) (pp : String → GoParse P) (pk : GoParse K)
      (pn : GoParse E) (fuel : Nat) (c : Cursor),
      ((atomParse rh pe ac ex ie pts pat pl pg pp pk pn fuel c).1.1.isSome
          = true ↔
        (atomParse rh pe ac ex ie pts pat pl pg pp pk pn fuel c).1.2
          = none) := by
  constructor
  · intro ι τ μ pc pi pt pm fuel c
    unfold rssParse rssParseRoot
    repeat' split
    all_goals simp
  · intro P L K G E X rh pe ac ex ie pts pat pl pg pp pk pn fuel c
    unfold atomParse atomParseRoot
    rcases hfr : findRoot c with ⟨fr, c2⟩
    cases fr with
    | error e => simp [hfr]
    | ok u =>
      simp only [hfr]
      cases hex : xppExpect c2 XEvent.startTag "feed" with
      | error e => simp [hex]
      | ok u2 =>
        simp only [hex]
        rcases hlp : atomParseRootLoop rh pe ac pts pat pl pg pp pk pn fuel
            c2 ⟨⟨atomParseVersion c2, goAttribute c2.cur.attrs "lang", "",
              "", "", "", "", "", "", none, none, none, none, none, [],
              none⟩, [], [], [], [], ex⟩ with ⟨r, c3⟩
        cases r with
        | error e => simp [hlp]
        | ok acc =>
          simp only [hlp]
          cases hee : xppExpect c3 XEvent.endTag "feed" with
          | error e => simp [hee]
          | ok u3 => simp [hee]

/-- C9: a successfully parsed Atom link whose `rel` attribute lookup is
empty gets the default `"alternate"`, and a non-empty `rel` value is kept
verbatim. -/
theorem c9_link_rel_defaults_to_alternate (c : Cursor) (l : AtomLink)
    (c2 : Cursor) (h : parseLinkA c = ((some l, none), c2)) :
    l.rel = (if goAttribute c.cur.attrs "rel" = "" then "alternate"
      else goAttribute c.cur.attrs "rel") := by
  unfold parseLinkA at h
  repeat' split at h
  all_goals simp_all
  obtain ⟨h1, -⟩ := h
  subst h1
  rfl

/-- A successful `nextTag`-style token loop only pops tokens: the resulting
stream is a suffix of the input stream, and the call returned either an end
tag, or a start tag that became the current token and was drawn from the
input stream. -/
theorem pNextLoop_ok_facts (fuel : Nat) (c c2 : Cursor) (ev : XEvent)
    (h : pNextLoop fuel c = (Except.ok ev, c2)) :
    c2.stream <:+ c.stream ∧
      (ev = XEvent.endTag ∨
        (ev = XEvent.startTag ∧ c2.cur ∈ c.stream ∧
          c2.cur.ev = XEvent.startTag)) := by
  induction fuel generalizing c with
  | zero => simp [pNextLoop] at h
  | succ k ih =>
    rw [pNextLoop] at h
    cases hs : c.stream with
    | nil => simp [xppNext, hs, endDocTok] at h
    | cons t ts =>
      simp only [xppNext, hs] at h
      cases htev : t.ev <;> simp only [htev] at h
      · -- startTag
        obtain ⟨hev, hc2⟩ : XEvent.startTag = ev ∧
            ({ c with stream := ts, cur := t } : Cursor) = c2 := by
          simpa using h
        subst hev
        subst hc2
        refine ⟨List.suffix_cons t ts, Or.inr ?_⟩
        exact ⟨rfl, List.mem_cons_self t ts, htev⟩
      · -- endTag
        obtain ⟨hev, hc2⟩ : XEvent.endTag = ev ∧
            ({ c with stream := ts, cur := t } : Cursor) = c2 := by
          simpa using h
        subst hev
        subst hc2
        exact ⟨List.suffix_cons t ts, Or.inl rfl⟩
      · -- text
        have := ih { c with stream := ts, cur := t } h
        refine ⟨this.1.trans (List.suffix_cons t ts), ?_⟩
        rcases this.2 with h1 | ⟨h1, h2, h3⟩
        · exact Or.inl h1
        · exact Or.inr ⟨h1, List.mem_cons_of_mem t h2, h3⟩
      · -- other
        have := ih { c with stream := ts, cur := t } h
        refine ⟨this.1.trans (List.suffix_cons t ts), ?_⟩
        rcases this.2 with h1 | ⟨h1, h2, h3⟩
        · exact Or.inl h1
        · exact Or.inr ⟨h1, List.mem_cons_of_mem t h2, h3⟩
      · -- endDocument
        simp at h

/-- `Skip` only pops tokens: the resulting stream is a suffix of the input
stream. -/
theorem xppSkipLoop_stream_suffix (fuel depth : Nat) (c : Cursor) :
    ((xppSkipLoop fuel depth c).2).stream <:+ c.stream := by
  induction fuel generalizing depth c with
  | zero => simp [xppSkipLoop]
  | succ k ih =>
    rw [xppSkipLoop]
    cases hs : c.stream with
    | nil => simp [xppNext, hs, endDocTok]
    | cons t ts =>
      simp only [xppNext, hs]
      have hsuf : ts <:+ t :: ts := List.suffix_cons t ts
      cases htev : t.ev <;> simp only [htev]
      · exact (ih (depth + 1) _).trans hsuf
      · by_cases hd : depth = 0
        · simp only [if_pos hd]
          exact hsuf
        · simp only [if_neg hd]
          exact (ih (depth - 1) _).trans hsuf
      · exact (ih depth _).trans hsuf
      · exact (ih depth _).trans hsuf
      · exact hsuf

/-- `noChannelTok` transfers to any suffix of the stream. -/
theorem noChannelTok_mono {s t : List Tok} (h : noChannelTok s)
    (hsub : t <:+ s) : noChannelTok t :=
  fun x hx => h x (hsub.subset hx)

/-- Under consume-only sub-parsers and a stream with no `channel` start tag,
the root-child loop never reassigns its `channel` accumulator: a successful
exit still carries `none`. -/
theorem rssParseRootLoop_keeps_channel_none {ι τ μ : Type}
    (pc : GoParse (RssFeedG ι τ μ)) (pi : GoParse ι) (pt : GoParse τ)
    (pm : GoParse μ)
    (_hpc : ∀ c', ((pc c').2).stream <:+ c'.stream)
    (hpi : ∀ c', ((pi c').2).stream <:+ c'.stream)
    (hpt : ∀ c', ((pt c').2).stream <:+ c'.stream)
    (hpm : ∀ c', ((pm c').2).stream <:+ c'.stream) :
    ∀ (fuel : Nat) (c : Cursor) (ti : Option τ) (im : Option μ)
      (its : List (Option ι)) acc c2,
      noChannelTok c.stream →
      rssParseRootLoop pc pi pt pm fuel c none ti im its =
        (Except.ok acc, c2) →
      acc.1 = none := by
  intro fuel
  induction fuel with
  | zero =>
    intro c ti im its acc c2 _ h
    simp [rssParseRootLoop] at h
  | succ k ih =>
    intro c ti im its acc c2 hnc h
    rw [rssParseRootLoop] at h
    split at h
    · simp at h
    · rename_i ev cn hnt
      have hnt' : pNextLoop (c.stream.length + 1) c = (Except.ok ev, cn) :=
        hnt
      obtain ⟨hsuf, hcase⟩ :=
        pNextLoop_ok_facts (c.stream.length + 1) c cn ev hnt'
      have hncn : noChannelTok cn.stream := noChannelTok_mono hnc hsuf
      by_cases hev : ev = XEvent.endTag
      · rw [if_pos hev] at h
        obtain ⟨h1, -⟩ : (none, ti, im, its) = acc ∧ cn = c2 := by
          simpa using h
        rw [← h1]
      · rw [if_neg hev] at h
        rcases hcase with hend | ⟨-, hmem, hcurev⟩
        · exact absurd hend hev
        have hnotch : ¬(sToLower cn.cur.name = "channel") := by
          intro hch
          exact hnc cn.cur hmem ⟨hcurev, hch⟩
        by_cases hxt : isExtensionElem cn.cur.space cn.spaces
        · rw [if_pos hxt] at h
          exact ih (xppSkip cn).2 ti im its acc c2
            (noChannelTok_mono hncn (xppSkipLoop_stream_suffix _ 0 cn)) h
        · rw [if_neg hxt, if_neg hnotch] at h
          by_cases hit : sToLower cn.cur.name = "item"
          · rw [if_pos hit] at h
            split at h
            · simp at h
            · rename_i iv c3 hpi'
              have hc3 : c3.stream <:+ cn.stream := by
                have h' := hpi cn
                rw [hpi'] at h'
                exact h'
              exact ih c3 ti im (its ++ [iv]) acc c2
                (noChannelTok_mono hncn hc3) h
          · rw [if_neg hit] at h
            by_cases htx : sToLower cn.cur.name = "textinput"
            · rw [if_pos htx] at h
              split at h
              · simp at h
              · rename_i tv c3 hpt'
                have hc3 : c3.stream <:+ cn.stream := by
                  have h' := hpt cn
                  rw [hpt'] at h'
                  exact h'
                exact ih c3 tv im its acc c2
                  (noChannelTok_mono hncn hc3) h
            · rw [if_neg htx] at h
              by_cases him : sToLower cn.cur.name = "image"
              · rw [if_pos him] at h
                split at h
                · simp at h
                · rename_i imv c3 hpm'
                  have hc3 : c3.stream <:+ cn.stream := by
                    have h' := hpm cn
                    rw [hpm'] at h'
                    exact h'
                  exact ih c3 ti imv its acc c2
                    (noChannelTok_mono hncn hc3) h
              · rw [if_neg him] at h
                exact ih (xppSkip cn).2 ti im its acc c2
                  (noChannelTok_mono hncn
                    (xppSkipLoop_stream_suffix _ 0 cn)) h

/-- Merging a missing channel: the feed is the fresh record with an
allocated (possibly empty) item list holding exactly the root-level items in
order, the root-level textinput and image, and the version. -/
theorem mergeRoot_none_eq {ι τ μ : Type} (ti : Option τ) (im : Option μ)
    (its : List (Option ι)) (ver : String) :
    mergeRoot (ι := ι) none ti im its ver =
      { items := some its, textInput := ti, image := im, version := ver } := by
  unfold mergeRoot
  cases its with
  | nil => cases ti <;> cases im <;> simp
  | cons a l => cases ti <;> cases im <;> simp

/-- C10: for a well-formed RSS/RDF document whose root has no `channel`
element, a successful parse still returns a feed whose item list is
allocated (empty-but-present when no root items exist); the merge step puts
exactly the root-level items, in document order, into that feed together
with any root-level textinput and image; and when a channel does exist,
root-level items are appended after the channel's items. -/
theorem c10_channelless_root_merge :
    (∀ (ι τ μ : Type) (pc : GoParse (RssFeedG ι τ μ)) (pi : GoParse ι)
      (pt : GoParse τ) (pm : GoParse μ),
      (∀ c', ((pc c').2).stream <:+ c'.stream) →
      (∀ c', ((pi c').2).stream <:+ c'.stream) →
      (∀ c', ((pt c').2).stream <:+ c'.stream) →
      (∀ c', ((pm c').2).stream <:+ c'.stream) →
      ∀ (fuel : Nat) (c : Cursor) (feed : RssFeedG ι τ μ) (c2 : Cursor),
        noChannelTok c.stream →
        rssParseRoot pc pi pt pm fuel c = ((some feed, none), c2) →
        feed.items.isSome = true) ∧
    (∀ (ι τ μ : Type) (ti : Option τ) (im : Option μ)
      (its : List (Option ι)) (ver : String),
      mergeRoot (ι := ι) none ti im its ver =
        { items := some its, textInput := ti, image := im,
          version := ver }) ∧
    ∀ (ι τ μ : Type) (ch : RssFeedG ι τ μ) (ti : Option τ) (im : Option μ)
      (its : List (Option ι)) (ver : String), its ≠ [] →
      (mergeRoot (some ch) ti im its ver).items =
        some (ch.items.getD [] ++ its) := by
  refine ⟨?_, fun ι τ μ ti im its ver => mergeRoot_none_eq ti im its ver,
    ?_⟩
  · intro ι τ μ pc pi pt pm hpc hpi hpt hpm fuel c feed c2 hnc h
    unfold rssParseRoot at h
    split at h
    · simp at h
    · split at h
      · simp at h
      · rename_i ch ti im its c3 hlp
        split at h
        · simp at h
        · have hch : ch = none :=
            rssParseRootLoop_keeps_channel_none pc pi pt pm hpc hpi hpt hpm
              fuel c none none [] (ch, ti, im, its) c3 hnc hlp
          subst hch
          obtain ⟨hfeed, -⟩ : mergeRoot none ti im its (rssParseVersion c)
              = feed ∧ c3 = c2 := by simpa using h
          rw [← hfeed, mergeRoot_none_eq]
          rfl
  · intro ι τ μ ch ti im its ver hne
    unfold mergeRoot
    cases its with
    | nil => exact absurd rfl hne
    | cons a l => cases ti <;> cases im <;> simp

/-- C10 witness: the channel-less conjunct of the theorem applied to a
concrete root whose only content is the closing `rss` tag, with trivial
consume-nothing sub-parsers: the parse succeeds and the feed's item list is
allocated. -/
theorem c10_channelless_root_merge_witness :
    ((⟨some [], none, none, "2.0"⟩ :
      RssFeedG Unit Unit Unit)).items.isSome = true :=
  c10_channelless_root_merge.1 Unit Unit Unit
    (fun c' => ((none, none), c')) (fun c' => ((none, none), c'))
    (fun c' => ((none, none), c')) (fun c' => ((none, none), c'))
    (fun _ => List.suffix_refl _) (fun _ => List.suffix_refl _)
    (fun _ => List.suffix_refl _) (fun _ => List.suffix_refl _) 1
    ⟨[⟨XEvent.endTag, "rss", "", []⟩],
      ⟨XEvent.startTag, "rss", "", [⟨"version", "2.0"⟩]⟩, [], none⟩
    ⟨some [], none, none, "2.0"⟩ _
    (by
      intro t ht
      rw [List.mem_singleton] at ht
      subst ht
      decide)
    rfl

/-- C9 witness: a concrete link element with no `rel` attribute parses with
`rel = "alternate"`. -/
theorem c9_link_rel_defaults_to_alternate_witness :
    (⟨"h", "", "", "", "", "alternate"⟩ : AtomLink).rel =
      (if goAttribute [⟨"href", "h"⟩] "rel" = "" then "alternate"
       else goAttribute [⟨"href", "h"⟩] "rel") :=
  c9_link_rel_defaults_to_alternate
    ⟨[⟨XEvent.endTag, "link", "", []⟩],
      ⟨XEvent.startTag, "link", "", [⟨"href", "h"⟩]⟩, [], none⟩
    ⟨"h", "", "", "", "", "alternate"⟩ _ rfl

end Gofeed
